import Mathlib

/-!
Shallow embedding of the dir-ageism repository (Rust) for specification
checking.

Modelling conventions:
- File names and paths are Lean `String`s; the source treats non-UTF8
  names as never matching, so the model restricts to UTF-8 names.
- `days` is an `f32` in the source; it is modelled as an exact rational.
  Every concrete `f32` value is a rational, and the claims under check
  concern the comparison structure, not float rounding.
- Timestamp metadata is abstracted to the elapsed whole seconds that
  `metadata()?.accessed()?.elapsed()?.as_secs()` would produce, or the
  error it would produce.  The `metadata()` call itself is tracked
  separately (`metadataOk`) because `AsyncSearch::report_accessed`
  unwraps it (a panic on failure) while the other report functions
  propagate it with the question-mark operator.
- A directory tree is a rose tree; `errEntry` stands for an entry the
  underlying walker iterator yields as `Err` (e.g. unreadable
  directory).  Symlink following is abstracted into the tree shape.
- The platform conditional compilation `#[cfg(target_os = "macos")]`
  is modelled by a boolean parameter `macos`.
-/

deriving instance DecidableEq for Except

/-- constants.rs: number of seconds in a day. -/
def SECS_PER_DAY : Nat := 86400

/-- constants.rs: minimum number of days that the user may enter. -/
def MIN_DAYS : ℚ := 1 / 10000000

/-- The recency window in whole seconds:
`(SECS_PER_DAY as f64 * f64::from(days)).ceil() as u64`. -/
def window (days : ℚ) : Nat := (⌈(SECS_PER_DAY : ℚ) * days⌉).toNat

/-- Timestamp metadata of one file, abstracted to the outcomes of the
per-field `metadata()? .<field>()? .elapsed()? .as_secs()` pipelines.
`metadataOk` is the outcome of the `metadata()` call itself; each field
holds the elapsed whole seconds or the error message of the remaining
pipeline. -/
structure FileMeta where
  metadataOk : Bool
  accessed : Except String Nat
  created : Except String Nat
  modified : Except String Nat
deriving Repr, DecidableEq

/-- A filesystem subtree as enumerated by the walkers.  The `name` of a
node is the base name the walker reports for it (`file_name()`); for the
root entry this is the name walkdir/ignore derive from the start path. -/
inductive FsTree where
  | file (name : String) (meta : FileMeta)
  | dir (name : String) (children : List FsTree)
  | other (name : String)
  | errEntry (name : String) (msg : String)
deriving Repr

/-- Base name reported for a tree node. -/
def treeName : FsTree → String
  | .file n _ => n
  | .dir n _ => n
  | .other n => n
  | .errEntry n _ => n

/-- The search configuration shared by SyncSearch and AsyncSearch
(start_dir and threads are handled outside the model: the start path is
a parameter of find_matching, and the thread count does not affect which
results are produced). -/
structure Search where
  days : ℚ
  access : Bool
  create : Bool
  modify : Bool
  ignore_hidden : Bool
  skip : List String
deriving Repr, DecidableEq

/-- syncwalk.rs `report_modified`:
`entry.metadata()?.modified()?` then
`elapsed()?.as_secs() < (SECS_PER_DAY as f64 * days).ceil() as u64`. -/
def SyncSearch.report_modified (m : FileMeta) (days : ℚ) : Except String Bool :=
  if m.metadataOk then m.modified.map (fun s => decide (s < window days))
  else .error "IoError"

/-- syncwalk.rs `report_accessed` (same shape as `report_modified`). -/
def SyncSearch.report_accessed (m : FileMeta) (days : ℚ) : Except String Bool :=
  if m.metadataOk then m.accessed.map (fun s => decide (s < window days))
  else .error "IoError"

/-- syncwalk.rs `report_created` (same shape as `report_modified`). -/
def SyncSearch.report_created (m : FileMeta) (days : ℚ) : Except String Bool :=
  if m.metadataOk then m.created.map (fun s => decide (s < window days))
  else .error "IoError"

/-- The Rust char-pattern test `s.starts_with('.')`: true iff the first
character of the string is a dot. -/
def startsWithDot (s : String) : Bool :=
  match s.data with
  | [] => false
  | c :: _ => c == '.'

/-- syncwalk.rs `is_hidden`: if check is false return false, else the
name starts with a dot and is not exactly "./". -/
def SyncSearch.is_hidden (name : String) (check : Bool) : Bool :=
  if !check then false
  else startsWithDot name && name != "./"

/-- syncwalk.rs `matches_list`: false on an empty list, else true iff
some item equals the entry name. -/
def SyncSearch.matches_list (name : String) (list : List String) : Bool :=
  if list.isEmpty then false
  else list.any (fun item => name == item)

/-- The predicate passed to walkdir `filter_entry` in
`SyncSearch::find_matching`:
`!(is_hidden(e, ignore_hidden) || matches_list(e, skip))`. -/
def SyncSearch.filterEntry (s : Search) (name : String) : Bool :=
  !(SyncSearch.is_hidden name s.ignore_hidden || SyncSearch.matches_list name s.skip)

/-- The annotation accumulation of the `find_matching` loop body for one
file: starting from the empty string, push the character a, then (only
when compiled for macos) c, then m, each when the flag is set and the
corresponding report returns true; a report error aborts via the
question-mark operator. -/
def SyncSearch.annotate (macos : Bool) (s : Search) (m : FileMeta) : Except String String :=
  (if s.access then SyncSearch.report_accessed m s.days else .ok false).bind fun a =>
    (if s.create && macos then SyncSearch.report_created m s.days else .ok false).bind fun c =>
      (if s.modify then SyncSearch.report_modified m s.days else .ok false).bind fun mo =>
        .ok ((if a then "a" else "") ++ (if c then "c" else "") ++ (if mo then "m" else ""))

/-- One file of the `find_matching` loop: the printed line
`"{path} ({meta})"` when the annotation is nonempty, nothing when it is
empty, or the aborting error. -/
def SyncSearch.fileLine (macos : Bool) (s : Search) (path : String) (m : FileMeta) :
    Except String (Option String) :=
  (SyncSearch.annotate macos s m).map fun meta =>
    if meta.isEmpty then none else some (path ++ " (" ++ meta ++ ")")

/-- The walker outcome for one file entry, as a pair of the emitted
lines and the aborting error, if any. -/
def SyncSearch.fileResult (macos : Bool) (s : Search) (path : String) (m : FileMeta) :
    List String × Option String :=
  match SyncSearch.fileLine macos s path m with
  | .ok (some line) => ([line], none)
  | .ok none => ([], none)
  | .error e => ([], some e)

mutual
/-- Depth-first traversal of one node by `SyncSearch::find_matching`
(walkdir with `filter_entry`): the filter predicate is applied to every
yielded entry, the root included; a directory whose filter is false is
not descended; `Err` iterator items are skipped (`Err(_) => continue`);
non-file entries are skipped; file entries run `fileResult`, whose error
aborts the whole loop via the question-mark operator.  `path` is the
path walkdir reports for this node. -/
def SyncSearch.walkTree (macos : Bool) (s : Search) (path : String) :
    FsTree → List String × Option String
  | .errEntry _ _ => ([], none)
  | .other n =>
      if SyncSearch.filterEntry s n then ([], none) else ([], none)
  | .file n m =>
      if SyncSearch.filterEntry s n then SyncSearch.fileResult macos s path m
      else ([], none)
  | .dir n cs =>
      if SyncSearch.filterEntry s n then SyncSearch.walkList macos s path cs
      else ([], none)

/-- Traversal of a list of siblings, in order, stopping at the first
aborting error.  `path` is the path of the parent directory. -/
def SyncSearch.walkList (macos : Bool) (s : Search) (path : String) :
    List FsTree → List String × Option String
  | [] => ([], none)
  | t :: ts =>
      match SyncSearch.walkTree macos s (path ++ "/" ++ treeName t) t with
      | (out, some e) => (out, some e)
      | (out, none) =>
          match SyncSearch.walkList macos s path ts with
          | (out2, r) => (out ++ out2, r)
end

/-- syncwalk.rs `SyncSearch::find_matching`: early return when no
criterion is set (a notice is printed, no match lines); otherwise the
filtered depth-first walk from the root.  The first component is the
list of match lines printed to stdout, the second the error with which
the function returned, if any. -/
def SyncSearch.find_matching (macos : Bool) (s : Search) (rootPath : String) (t : FsTree) :
    List String × Option String :=
  if !(s.access || s.create || s.modify) then ([], none)
  else SyncSearch.walkTree macos s rootPath t

/-- Outcome of a computation that may panic (an unwrap on an error). -/
inductive PanicOr (α : Type) where
  | panicked
  | result (a : α)
deriving Repr, DecidableEq

/-- ignore crate WalkState, as used by asyncwalk (Quit is never used
by this program). -/
inductive WalkState where
  | Continue
  | Skip
deriving Repr, DecidableEq

/-- asyncwalk.rs `report_modified` (same pipeline as the sync one). -/
def AsyncSearch.report_modified (m : FileMeta) (days : ℚ) : Except String Bool :=
  if m.metadataOk then m.modified.map (fun s => decide (s < window days))
  else .error "IoError"

/-- asyncwalk.rs `report_accessed`: NOTE the source uses
`entry.metadata().unwrap()` here, so a failing `metadata()` call is a
panic, not an error; the remaining `accessed()? .elapsed()?` pipeline
propagates errors normally. -/
def AsyncSearch.report_accessed (m : FileMeta) (days : ℚ) : PanicOr (Except String Bool) :=
  if m.metadataOk then .result (m.accessed.map (fun s => decide (s < window days)))
  else .panicked

/-- asyncwalk.rs `report_created` (same pipeline as the sync one). -/
def AsyncSearch.report_created (m : FileMeta) (days : ℚ) : Except String Bool :=
  if m.metadataOk then m.created.map (fun s => decide (s < window days))
  else .error "IoError"

/-- asyncwalk.rs `matches_list`: NOTE the emptiness test is inverted
relative to the sync version (`if !list.is_empty() { return false; }`),
so on a nonempty list it returns false immediately and on an empty list
the loop body never runs — the function is constantly false. -/
def AsyncSearch.matches_list (name : String) (list : List String) : Bool :=
  if !list.isEmpty then false
  else list.any (fun item => name == item)

/-- The annotation accumulation of `AsyncSearch::process_entry` for a
file entry: a (via the unwrapping report_accessed), then (only on
macos) c, then m. -/
def AsyncSearch.annotate (macos : Bool) (s : Search) (m : FileMeta) :
    PanicOr (Except String String) :=
  match (if s.access then AsyncSearch.report_accessed m s.days else .result (.ok false)) with
  | .panicked => .panicked
  | .result (.error e) => .result (.error e)
  | .result (.ok a) =>
      match (if s.create && macos then AsyncSearch.report_created m s.days else .ok false) with
      | .error e => .result (.error e)
      | .ok c =>
          match (if s.modify then AsyncSearch.report_modified m s.days else .ok false) with
          | .error e => .result (.error e)
          | .ok mo =>
              .result (.ok ((if a then "a" else "") ++ (if c then "c" else "")
                ++ (if mo then "m" else "")))

/-- Result of `AsyncSearch::process_entry`, extended with the panic
case that `report_accessed`'s unwrap can raise. -/
inductive PEResult where
  | ok (state : WalkState) (line : Option String)
  | err (e : String)
  | panicked
deriving Repr, DecidableEq

/-- asyncwalk.rs `AsyncSearch::process_entry`: an `Err` iterator item
becomes an error via `let entry = result?`; a directory is skipped iff
the skip list is nonempty and `matches_list` matches (which, given the
inverted emptiness test, never happens); a file is annotated and
produces a line iff the annotation is nonempty; anything else
continues. -/
def AsyncSearch.process_entry (macos : Bool) (s : Search) (path : String) :
    FsTree → PEResult
  | .errEntry _ e => .err e
  | .dir n _ =>
      if !s.skip.isEmpty && AsyncSearch.matches_list n s.skip then .ok .Skip none
      else .ok .Continue none
  | .file _ m =>
      match AsyncSearch.annotate macos s m with
      | .panicked => .panicked
      | .result (.error e) => .err e
      | .result (.ok meta) =>
          if !meta.isEmpty then .ok .Continue (some (path ++ " (" ++ meta ++ ")"))
          else .ok .Continue none
  | .other _ => .ok .Continue none

/-- What `AsyncSearch::find_matching` observably produces: the match
lines sent on the match channel, the error strings sent on the error
channel, and whether a worker panicked (the panic then propagates out
of the walk).  The two channels are unordered relative to each other;
each is modelled as the list of messages in the canonical depth-first
order the model enumerates (the claims under check compare the channel
contents as sets). -/
structure AsyncOut where
  matchLines : List String
  errLines : List String
  panicked : Bool
deriving Repr, DecidableEq

/-- ignore crate hidden filtering: with `WalkBuilder::hidden(true)` an
entry below the root whose base name starts with a dot is not yielded
(and, if a directory, not descended); the root entry itself is always
yielded. -/
def AsyncSearch.hiddenFiltered (s : Search) (isRoot : Bool) (name : String) : Bool :=
  !isRoot && s.ignore_hidden && startsWithDot name

mutual
/-- Traversal of one node by the parallel walker: the ignore crate
hidden filter is applied first (never to the root); then the closure
runs `process_entry` and either sends the line on the match channel,
sends the error on the error channel, panics, or descends according to
the returned WalkState. -/
def AsyncSearch.walkTree (macos : Bool) (s : Search) (isRoot : Bool) (path : String) :
    FsTree → AsyncOut
  | .dir n cs =>
      if AsyncSearch.hiddenFiltered s isRoot n then ⟨[], [], false⟩
      else
        match AsyncSearch.process_entry macos s path (.dir n cs) with
        | .panicked => ⟨[], [], true⟩
        | .err e => ⟨[], [e], false⟩
        | .ok .Skip _ => ⟨[], [], false⟩
        | .ok .Continue line =>
            match AsyncSearch.walkChildren macos s path cs with
            | rest => ⟨line.toList ++ rest.matchLines, rest.errLines, rest.panicked⟩
  | .file n m =>
      if AsyncSearch.hiddenFiltered s isRoot n then ⟨[], [], false⟩
      else
        match AsyncSearch.process_entry macos s path (.file n m) with
        | .panicked => ⟨[], [], true⟩
        | .err e => ⟨[], [e], false⟩
        | .ok _ line => ⟨line.toList, [], false⟩
  | .other n =>
      if AsyncSearch.hiddenFiltered s isRoot n then ⟨[], [], false⟩
      else
        match AsyncSearch.process_entry macos s path (.other n) with
        | .panicked => ⟨[], [], true⟩
        | .err e => ⟨[], [e], false⟩
        | .ok _ line => ⟨line.toList, [], false⟩
  | .errEntry n e =>
      match AsyncSearch.process_entry macos s path (.errEntry n e) with
      | .panicked => ⟨[], [], true⟩
      | .err e2 => ⟨[], [e2], false⟩
      | .ok _ line => ⟨line.toList, [], false⟩

/-- Traversal of the children of a directory.  A panicked worker stops
the walk (the panic propagates); otherwise channel messages accumulate.
`path` is the path of the parent directory. -/
def AsyncSearch.walkChildren (macos : Bool) (s : Search) (path : String) :
    List FsTree → AsyncOut
  | [] => ⟨[], [], false⟩
  | t :: ts =>
      match AsyncSearch.walkTree macos s false (path ++ "/" ++ treeName t) t with
      | r =>
          if r.panicked then r
          else
            match AsyncSearch.walkChildren macos s path ts with
            | rest => ⟨r.matchLines ++ rest.matchLines, r.errLines ++ rest.errLines, rest.panicked⟩
end

/-- asyncwalk.rs `AsyncSearch::find_matching`: early return when no
criterion is set; otherwise the parallel walk from the root with both
channels drained by the sink threads. -/
def AsyncSearch.find_matching (macos : Bool) (s : Search) (rootPath : String) (t : FsTree) :
    AsyncOut :=
  if !(s.access || s.create || s.modify) then ⟨[], [], false⟩
  else AsyncSearch.walkTree macos s true rootPath t

/-- amble.rs command-line options after parsing (dir existence is a
separate parameter of the model, and threads do not affect which
results are produced). -/
structure Opt where
  access : Bool
  modify : Bool
  create : Bool
  ignore : Bool
  days : ℚ
  skip : List String
  sync : Bool
deriving Repr, DecidableEq

/-- amble.rs main, defaulting step: if the user specified none of the
metadata flags, access and modify are turned on, and create is turned
on exactly on macos (off on linux). -/
def Amble.resolveFlags (macos : Bool) (o : Opt) : Opt :=
  if !(o.access || o.create || o.modify) then
    ⟨true, true, macos, o.ignore, o.days, o.skip, o.sync⟩
  else o

/-- How amble.rs main returns: Ok, an error value, or a panic that
escaped a worker of the parallel walker. -/
inductive MainOutcome where
  | ok
  | err (e : String)
  | panicked
deriving Repr, DecidableEq

/-- Observable result of one amble run: the warning printed for a
rejected configuration (if any), the match lines, the error lines, and
how main returned. -/
structure MainResult where
  warning : Option String
  matchLines : List String
  errLines : List String
  outcome : MainOutcome
deriving Repr, DecidableEq

/-- amble.rs `main`: a nonexistent root prints a warning and returns
Ok before any traversal; a days value not exceeding MIN_DAYS
(`!(opt.days > MIN_DAYS)`) likewise; otherwise flags are defaulted and
the selected walker runs. -/
def Amble.main (macos : Bool) (dirExists : Bool) (o : Opt) (rootPath : String) (t : FsTree) :
    MainResult :=
  if !dirExists then
    ⟨some "Warning: does not exist. Exiting.", [], [], .ok⟩
  else if !(o.days > MIN_DAYS) then
    ⟨some "Warning: days must be greater than 0.", [], [], .ok⟩
  else
    match Amble.resolveFlags macos o with
    | o2 =>
        match (⟨o2.days, o2.access, o2.create, o2.modify, o2.ignore, o2.skip⟩ : Search) with
        | s =>
            if o2.sync then
              match SyncSearch.find_matching macos s rootPath t with
              | (out, none) => ⟨none, out, [], .ok⟩
              | (out, some e) => ⟨none, out, [], .err e⟩
            else
              match AsyncSearch.find_matching macos s rootPath t with
              | r => ⟨none, r.matchLines, r.errLines, if r.panicked then .panicked else .ok⟩

/-! Helper lemmas and concrete inputs used across the development. -/

/-- String.isEmpty expressed through boolean equality, so that simp can
evaluate it on literals. -/
theorem string_isEmpty_eq (s : String) : s.isEmpty = (s == "") := by
  by_cases h : s = ""
  · subst h
    rfl
  · have h1 : s.isEmpty = false := by
      rcases h2 : s.isEmpty with _ | _
      · rfl
      · exact absurd ((String.isEmpty_iff s).mp h2) h
    have h3 : (s == "") = false := by
      simpa using h
    rw [h1, h3]

/-- The window of a whole number of days is that many whole days of
seconds. -/
theorem window_natCast (n : ℕ) : window (n : ℚ) = SECS_PER_DAY * n := by
  unfold window SECS_PER_DAY
  rw [show ((86400 : ℕ) : ℚ) * (n : ℚ) = ((86400 * n : ℕ) : ℚ) by push_cast; ring]
  rw [Int.ceil_natCast]
  exact Int.toNat_natCast _

/-- window 3 in seconds. -/
theorem window_three : window 3 = 259200 := by
  have h : ((3 : ℕ) : ℚ) = (3 : ℚ) := by norm_num
  have h2 := window_natCast 3
  rw [h] at h2
  simpa [SECS_PER_DAY] using h2

/-- window 1 in seconds. -/
theorem window_one : window 1 = 86400 := by
  have h : ((1 : ℕ) : ℚ) = (1 : ℚ) := by norm_num
  have h2 := window_natCast 1
  rw [h] at h2
  simpa [SECS_PER_DAY] using h2

/-- Metadata of a file touched 3600 seconds ago, with every read
succeeding. -/
def freshMeta : FileMeta := ⟨true, .ok 3600, .ok 3600, .ok 3600⟩

/-- Metadata of a file whose `metadata()` call fails. -/
def brokenMeta : FileMeta := ⟨false, .ok 3600, .ok 3600, .ok 3600⟩

/-- Search for files modified in the last 3 days, skipping directories
named skip_me (hidden handling off). -/
def skipSearch : Search := ⟨3, false, false, true, false, ["skip_me"]⟩

/-- A root directory containing a skip-listed directory that holds a
recently modified file. -/
def skipTree : FsTree := .dir "root" [.dir "skip_me" [.file "b.txt" freshMeta]]

/-- Search for files accessed or modified in the last day (hidden
handling off, no skip list). -/
def amSearch : Search := ⟨1, true, false, true, false, []⟩

/-- A root directory with a file whose metadata read fails, followed by
a sibling fresh file. -/
def errTree : FsTree := .dir "root" [.file "bad" brokenMeta, .file "good" freshMeta]

/-- The same root directory with only the fresh file. -/
def goodTree : FsTree := .dir "root" [.file "good" freshMeta]

/-- C1: the claim states that in BOTH walkers a directory whose base
name is in the nonempty skip list is pruned before descent.  The
sequential walker does prune, but `AsyncSearch::matches_list` inverts
its emptiness test (`if !list.is_empty() { return false; }`), so the
parallel walker never prunes: with skip = ["skip_me"], the parallel
walker descends into directory skip_me and emits its fresh descendant
file, while the sequential walker emits nothing. -/
theorem C1_async_skip_never_pruned :
    AsyncSearch.matches_list "skip_me" ["skip_me"] = false
    ∧ SyncSearch.matches_list "skip_me" ["skip_me"] = true
    ∧ (AsyncSearch.find_matching false skipSearch "root" skipTree).matchLines
        = ["root/skip_me/b.txt (m)"]
    ∧ SyncSearch.find_matching false skipSearch "root" skipTree = ([], none) := by
  refine ⟨by simp [AsyncSearch.matches_list], by simp [SyncSearch.matches_list], ?_, ?_⟩
  · simp [AsyncSearch.find_matching, AsyncSearch.walkTree, AsyncSearch.walkChildren,
      AsyncSearch.process_entry, AsyncSearch.annotate, AsyncSearch.report_modified,
      AsyncSearch.report_accessed, AsyncSearch.matches_list, AsyncSearch.hiddenFiltered,
      skipSearch, skipTree, freshMeta, treeName, window_three, Except.map, string_isEmpty_eq]
  · simp [SyncSearch.find_matching, SyncSearch.walkTree, SyncSearch.walkList,
      SyncSearch.filterEntry, SyncSearch.is_hidden, SyncSearch.matches_list,
      skipSearch, skipTree]

/-- C2: the claim states that a metadata failure at one entry is
converted to a ScanError on the error sink and traversal continues, in
both walkers.  In the code, a metadata failure aborts instead: the
sequential find_matching propagates the error with the question-mark
operator and returns Err without visiting the remaining entries (the
sibling fresh file, which the same search reports when the broken file
is absent, is lost), and the parallel report_accessed unwraps the
failing metadata call, panicking the worker. -/
theorem C2_metadata_error_aborts :
    SyncSearch.find_matching false amSearch "root" errTree = ([], some "IoError")
    ∧ AsyncSearch.find_matching false amSearch "root" errTree = ⟨[], [], true⟩
    ∧ SyncSearch.find_matching false amSearch "root" goodTree = (["root/good (am)"], none) := by
  refine ⟨?_, ?_, ?_⟩
  · simp [SyncSearch.find_matching, SyncSearch.walkTree, SyncSearch.walkList,
      SyncSearch.filterEntry, SyncSearch.is_hidden, SyncSearch.matches_list,
      SyncSearch.fileResult, SyncSearch.fileLine, SyncSearch.annotate,
      SyncSearch.report_accessed, SyncSearch.report_modified,
      amSearch, errTree, brokenMeta, freshMeta, treeName, window_one,
      Except.map, Except.bind, string_isEmpty_eq]
  · simp [AsyncSearch.find_matching, AsyncSearch.walkTree, AsyncSearch.walkChildren,
      AsyncSearch.process_entry, AsyncSearch.annotate, AsyncSearch.report_modified,
      AsyncSearch.report_accessed, AsyncSearch.hiddenFiltered, AsyncSearch.matches_list,
      amSearch, errTree, brokenMeta, freshMeta, treeName, window_one,
      Except.map, Except.bind, string_isEmpty_eq]
  · simp [SyncSearch.find_matching, SyncSearch.walkTree, SyncSearch.walkList,
      SyncSearch.filterEntry, SyncSearch.is_hidden, SyncSearch.matches_list,
      SyncSearch.fileResult, SyncSearch.fileLine, SyncSearch.annotate,
      SyncSearch.report_accessed, SyncSearch.report_modified,
      amSearch, goodTree, freshMeta, treeName, window_one,
      Except.map, Except.bind, string_isEmpty_eq]

/-- C10: in the sequential walker walkdir applies the filter_entry
predicate to the root entry as well, so with hidden handling enabled a
start directory whose reported file name starts with a dot (and is not
exactly "./") is filtered out and the whole scan emits nothing,
whatever the subtree holds. -/
theorem C10_hidden_root_scans_nothing (macos : Bool) (s : Search)
    (h : s.ignore_hidden = true) (rootPath name : String)
    (h1 : startsWithDot name = true) (h2 : name ≠ "./") (cs : List FsTree) :
    SyncSearch.find_matching macos s rootPath (.dir name cs) = ([], none) := by
  unfold SyncSearch.find_matching
  rcases hcrit : !(s.access || s.create || s.modify) with _ | _
  · simp only [hcrit, Bool.false_eq_true, if_false]
    have hf : SyncSearch.filterEntry s name = false := by
      simp [SyncSearch.filterEntry, SyncSearch.is_hidden, h, h1, h2]
    simp [SyncSearch.walkTree, hf]
  · simp only [hcrit, if_true]

/-- C10 witness: a hidden start directory named .git hides a fresh
descendant file from a modify search. -/
theorem C10_hidden_root_scans_nothing_witness :
    SyncSearch.find_matching false ⟨3, false, false, true, true, []⟩ ".git"
      (.dir ".git" [.file "b.txt" freshMeta]) = ([], none) :=
  C10_hidden_root_scans_nothing false ⟨3, false, false, true, true, []⟩ rfl ".git" ".git"
    (by decide) (by decide) [.file "b.txt" freshMeta]

/-- C4: for each predicate, given a successful metadata read, a file
matches iff the elapsed whole seconds are strictly below
ceil(86400 * days): the window equals the integer ceiling of
SECS_PER_DAY * days, each report function returns exactly the strict
comparison against it, and an elapsed time exactly at the window
boundary is excluded. -/
theorem C4_window_strict (days : ℚ) (hd : 0 < days) (m : FileMeta)
    (hok : m.metadataOk = true) (ta tc tm : Nat)
    (ha : m.accessed = .ok ta) (hc : m.created = .ok tc) (hm2 : m.modified = .ok tm) :
    ((window days : ℤ) = ⌈(SECS_PER_DAY : ℚ) * days⌉)
    ∧ SyncSearch.report_accessed m days = .ok (decide (ta < window days))
    ∧ SyncSearch.report_created m days = .ok (decide (tc < window days))
    ∧ SyncSearch.report_modified m days = .ok (decide (tm < window days))
    ∧ (ta = window days → SyncSearch.report_accessed m days = .ok false)
    ∧ (tc = window days → SyncSearch.report_created m days = .ok false)
    ∧ (tm = window days → SyncSearch.report_modified m days = .ok false) := by
  have hceil : (0 : ℤ) < ⌈(SECS_PER_DAY : ℚ) * days⌉ := by
    rw [Int.ceil_pos]
    have hs : (0 : ℚ) < (SECS_PER_DAY : ℚ) := by norm_num [SECS_PER_DAY]
    exact mul_pos hs hd
  refine ⟨?_, ?_, ?_, ?_, ?_, ?_, ?_⟩
  · exact Int.toNat_of_nonneg (le_of_lt hceil)
  · simp [SyncSearch.report_accessed, hok, ha, Except.map]
  · simp [SyncSearch.report_created, hok, hc, Except.map]
  · simp [SyncSearch.report_modified, hok, hm2, Except.map]
  · intro h
    simp [SyncSearch.report_accessed, hok, ha, Except.map, h]
  · intro h
    simp [SyncSearch.report_created, hok, hc, Except.map, h]
  · intro h
    simp [SyncSearch.report_modified, hok, hm2, Except.map, h]

/-- C4 witness: at days = 3 the window is 259200 seconds; a file
touched 3600 seconds ago matches, and the boundary facts instantiate at
the elapsed times of freshMeta. -/
theorem C4_window_strict_witness :
    ((window 3 : ℤ) = ⌈(SECS_PER_DAY : ℚ) * 3⌉)
    ∧ SyncSearch.report_accessed freshMeta 3 = .ok (decide (3600 < window 3))
    ∧ SyncSearch.report_created freshMeta 3 = .ok (decide (3600 < window 3))
    ∧ SyncSearch.report_modified freshMeta 3 = .ok (decide (3600 < window 3))
    ∧ (3600 = window 3 → SyncSearch.report_accessed freshMeta 3 = .ok false)
    ∧ (3600 = window 3 → SyncSearch.report_created freshMeta 3 = .ok false)
    ∧ (3600 = window 3 → SyncSearch.report_modified freshMeta 3 = .ok false) :=
  C4_window_strict 3 (by norm_num) freshMeta rfl 3600 3600 3600 rfl rfl rfl

/-- The fixed-order annotation string: a, then c, then m, concatenated
with no separator, each present iff its flag is true. -/
def annotationOf (a c mo : Bool) : String :=
  (if a then "a" else "") ++ (if c then "c" else "") ++ (if mo then "m" else "")

/-- The annotation is empty iff no flag is true. -/
theorem annotationOf_isEmpty (a c mo : Bool) :
    (annotationOf a c mo).isEmpty = (!(a || c || mo)) := by
  rcases a <;> rcases c <;> rcases mo <;>
    simp [annotationOf, string_isEmpty_eq]

/-- Sync annotation computes the fixed-order annotation of the three
effective predicate outcomes. -/
theorem sync_annotate_eq (macos : Bool) (s : Search) (m : FileMeta)
    (hok : m.metadataOk = true) (ta tc tm : Nat)
    (ha : m.accessed = .ok ta) (hc : m.created = .ok tc) (hm2 : m.modified = .ok tm) :
    SyncSearch.annotate macos s m =
      .ok (annotationOf (s.access && decide (ta < window s.days))
        (s.create && macos && decide (tc < window s.days))
        (s.modify && decide (tm < window s.days))) := by
  rcases hacc : s.access <;> rcases hcre : s.create <;> rcases hmod : s.modify <;>
    rcases macos <;>
      simp [SyncSearch.annotate, SyncSearch.report_accessed, SyncSearch.report_created,
        SyncSearch.report_modified, hok, ha, hc, hm2, Except.map, Except.bind,
        annotationOf, hacc, hcre, hmod]

/-- Async annotation agrees with the sync one when the metadata call
succeeds. -/
theorem async_annotate_eq (macos : Bool) (s : Search) (m : FileMeta)
    (hok : m.metadataOk = true) (ta tc tm : Nat)
    (ha : m.accessed = .ok ta) (hc : m.created = .ok tc) (hm2 : m.modified = .ok tm) :
    AsyncSearch.annotate macos s m =
      .result (.ok (annotationOf (s.access && decide (ta < window s.days))
        (s.create && macos && decide (tc < window s.days))
        (s.modify && decide (tm < window s.days)))) := by
  rcases hacc : s.access <;> rcases hcre : s.create <;> rcases hmod : s.modify <;>
    rcases macos <;>
      simp [AsyncSearch.annotate, AsyncSearch.report_accessed, AsyncSearch.report_created,
        AsyncSearch.report_modified, hok, ha, hc, hm2, Except.map, annotationOf,
        hacc, hcre, hmod]

/-- C5: for an evaluated file whose metadata reads succeed, both
walkers emit the line "path (annotation)" iff at least one performed
predicate is true; the annotation is a, then c, then m, concatenated
with no separator, and it is nonempty exactly when a line is emitted
(a zero-length annotation is never emitted). -/
theorem C5_emit_iff (macos : Bool) (s : Search) (p n : String) (m : FileMeta)
    (hok : m.metadataOk = true) (ta tc tm : Nat)
    (ha : m.accessed = .ok ta) (hc : m.created = .ok tc) (hm2 : m.modified = .ok tm) :
    SyncSearch.fileLine macos s p m =
      .ok (if (s.access && decide (ta < window s.days))
            || (s.create && macos && decide (tc < window s.days))
            || (s.modify && decide (tm < window s.days)) then
        some (p ++ " (" ++ annotationOf (s.access && decide (ta < window s.days))
          (s.create && macos && decide (tc < window s.days))
          (s.modify && decide (tm < window s.days)) ++ ")")
      else none)
    ∧ AsyncSearch.process_entry macos s p (.file n m) =
      .ok .Continue (if (s.access && decide (ta < window s.days))
            || (s.create && macos && decide (tc < window s.days))
            || (s.modify && decide (tm < window s.days)) then
        some (p ++ " (" ++ annotationOf (s.access && decide (ta < window s.days))
          (s.create && macos && decide (tc < window s.days))
          (s.modify && decide (tm < window s.days)) ++ ")")
      else none)
    ∧ ((s.access && decide (ta < window s.days))
        || (s.create && macos && decide (tc < window s.days))
        || (s.modify && decide (tm < window s.days)))
      = !(annotationOf (s.access && decide (ta < window s.days))
          (s.create && macos && decide (tc < window s.days))
          (s.modify && decide (tm < window s.days))).isEmpty := by
  have hs := sync_annotate_eq macos s m hok ta tc tm ha hc hm2
  have hA := async_annotate_eq macos s m hok ta tc tm ha hc hm2
  refine ⟨?_, ?_, ?_⟩
  · rw [SyncSearch.fileLine, hs]
    rcases hcond : ((s.access && decide (ta < window s.days))
        || (s.create && macos && decide (tc < window s.days))
        || (s.modify && decide (tm < window s.days))) with _ | _ <;>
      simp [Except.map, annotationOf_isEmpty, hcond]
  · rw [AsyncSearch.process_entry, hA]
    rcases hcond : ((s.access && decide (ta < window s.days))
        || (s.create && macos && decide (tc < window s.days))
        || (s.modify && decide (tm < window s.days))) with _ | _ <;>
      simp [annotationOf_isEmpty, hcond]
  · rw [annotationOf_isEmpty]
    simp

/-- C5 witness: a fresh file under an access+modify day-long search is
emitted, with annotation am, by both walkers. -/
theorem C5_emit_iff_witness :
    SyncSearch.fileLine false amSearch "root/good" freshMeta =
      .ok (if (amSearch.access && decide (3600 < window amSearch.days))
            || (amSearch.create && false && decide (3600 < window amSearch.days))
            || (amSearch.modify && decide (3600 < window amSearch.days)) then
        some ("root/good" ++ " (" ++ annotationOf
          (amSearch.access && decide (3600 < window amSearch.days))
          (amSearch.create && false && decide (3600 < window amSearch.days))
          (amSearch.modify && decide (3600 < window amSearch.days)) ++ ")")
      else none)
    ∧ AsyncSearch.process_entry false amSearch "root/good" (.file "good" freshMeta) =
      .ok .Continue (if (amSearch.access && decide (3600 < window amSearch.days))
            || (amSearch.create && false && decide (3600 < window amSearch.days))
            || (amSearch.modify && decide (3600 < window amSearch.days)) then
        some ("root/good" ++ " (" ++ annotationOf
          (amSearch.access && decide (3600 < window amSearch.days))
          (amSearch.create && false && decide (3600 < window amSearch.days))
          (amSearch.modify && decide (3600 < window amSearch.days)) ++ ")")
      else none)
    ∧ ((amSearch.access && decide (3600 < window amSearch.days))
        || (amSearch.create && false && decide (3600 < window amSearch.days))
        || (amSearch.modify && decide (3600 < window amSearch.days)))
      = !(annotationOf (amSearch.access && decide (3600 < window amSearch.days))
          (amSearch.create && false && decide (3600 < window amSearch.days))
          (amSearch.modify && decide (3600 < window amSearch.days))).isEmpty :=
  C5_emit_iff false amSearch "root/good" "good" freshMeta rfl 3600 3600 3600 rfl rfl rfl

/-- The channel effect of one closure invocation of the parallel
walker, as a function of the process_entry result (no descent). -/
def AsyncSearch.entryOut (r : PEResult) : AsyncOut :=
  match r with
  | .panicked => ⟨[], [], true⟩
  | .err e => ⟨[], [e], false⟩
  | .ok _ line => ⟨line.toList, [], false⟩

/-- C6: with the hidden policy enabled, a file whose base name starts
with a dot (and, for the sequential walker, is not exactly "./") is
never evaluated or emitted and its removal from a sibling list does not
change what the siblings produce, in either walker; with the policy
disabled, the file is processed exactly like any other file (its full
per-file evaluation runs, timestamps included). -/
theorem C6_hidden_policy (macos : Bool) (sOn sOff : Search)
    (hOn : sOn.ignore_hidden = true) (hOff : sOff.ignore_hidden = false)
    (p name : String) (m : FileMeta)
    (hdot : startsWithDot name = true) (hslash : name ≠ "./")
    (hskip : SyncSearch.matches_list name sOff.skip = false)
    (ts1 ts2 : List FsTree) :
    SyncSearch.walkList macos sOn p (ts1 ++ .file name m :: ts2)
      = SyncSearch.walkList macos sOn p (ts1 ++ ts2)
    ∧ AsyncSearch.walkChildren macos sOn p (ts1 ++ .file name m :: ts2)
      = AsyncSearch.walkChildren macos sOn p (ts1 ++ ts2)
    ∧ SyncSearch.walkTree macos sOff p (.file name m)
      = SyncSearch.fileResult macos sOff p m
    ∧ AsyncSearch.walkTree macos sOff false p (.file name m)
      = AsyncSearch.entryOut (AsyncSearch.process_entry macos sOff p (.file name m)) := by
  refine ⟨?_, ?_, ?_, ?_⟩
  · induction ts1 with
    | nil =>
        have hf : SyncSearch.filterEntry sOn name = false := by
          simp [SyncSearch.filterEntry, SyncSearch.is_hidden, hOn, hdot, hslash]
        simp [SyncSearch.walkList, SyncSearch.walkTree, treeName, hf]
    | cons t ts ih =>
        simp only [List.cons_append, SyncSearch.walkList, List.append_eq]
        simp only [ih]
  · induction ts1 with
    | nil =>
        have hf : AsyncSearch.hiddenFiltered sOn false name = true := by
          simp [AsyncSearch.hiddenFiltered, hOn, hdot]
        simp [AsyncSearch.walkChildren, AsyncSearch.walkTree, treeName, hf]
    | cons t ts ih =>
        simp only [List.cons_append, AsyncSearch.walkChildren, List.append_eq]
        simp only [ih]
  · have hf : SyncSearch.filterEntry sOff name = true := by
      simp [SyncSearch.filterEntry, SyncSearch.is_hidden, hOff, hskip]
    simp [SyncSearch.walkTree, hf]
  · have hf : AsyncSearch.hiddenFiltered sOff false name = false := by
      simp [AsyncSearch.hiddenFiltered, hOff]
    rw [AsyncSearch.walkTree, hf]
    rcases h : AsyncSearch.process_entry macos sOff p (.file name m) with ⟨st, line⟩ | e | _ <;>
      simp [AsyncSearch.entryOut, h]

/-- C6 witness: with hidden policy on, the hidden file .secret is
dropped and its fresh sibling is unaffected; with the policy off, the
hidden file is evaluated like any other file. -/
theorem C6_hidden_policy_witness :
    SyncSearch.walkList false ⟨3, false, false, true, true, []⟩ "root"
        ([] ++ .file ".secret" freshMeta :: [.file "vis.txt" freshMeta])
      = SyncSearch.walkList false ⟨3, false, false, true, true, []⟩ "root"
        ([] ++ [.file "vis.txt" freshMeta])
    ∧ AsyncSearch.walkChildren false ⟨3, false, false, true, true, []⟩ "root"
        ([] ++ .file ".secret" freshMeta :: [.file "vis.txt" freshMeta])
      = AsyncSearch.walkChildren false ⟨3, false, false, true, true, []⟩ "root"
        ([] ++ [.file "vis.txt" freshMeta])
    ∧ SyncSearch.walkTree false ⟨3, false, false, true, false, []⟩ "root"
        (.file ".secret" freshMeta)
      = SyncSearch.fileResult false ⟨3, false, false, true, false, []⟩ "root" freshMeta
    ∧ AsyncSearch.walkTree false ⟨3, false, false, true, false, []⟩ false "root"
        (.file ".secret" freshMeta)
      = AsyncSearch.entryOut (AsyncSearch.process_entry false ⟨3, false, false, true, false, []⟩
          "root" (.file ".secret" freshMeta)) :=
  C6_hidden_policy false ⟨3, false, false, true, true, []⟩ ⟨3, false, false, true, false, []⟩
    rfl rfl "root" ".secret" freshMeta (by decide) (by decide) (by decide)
    [] [.file "vis.txt" freshMeta]

/-- On a platform without creation metadata the annotation can never
contain the character c. -/
theorem annotate_linux_no_c (s : Search) (m : FileMeta) (str : String)
    (h : SyncSearch.annotate false s m = .ok str) : str.data.contains 'c' = false := by
  unfold SyncSearch.annotate at h
  rcases h1 : (if s.access then SyncSearch.report_accessed m s.days else .ok false) with e | a
  · rw [h1] at h
    simp [Except.bind] at h
  · rw [h1] at h
    have hc : (if s.create && false then SyncSearch.report_created m s.days
        else (.ok false : Except String Bool)) = .ok false := by
      simp
    rw [hc] at h
    rcases h2 : (if s.modify then SyncSearch.report_modified m s.days else .ok false) with e | mo
    · rw [h2] at h
      simp [Except.bind] at h
    · rw [h2] at h
      simp [Except.bind] at h
      rw [← h]
      rcases a <;> rcases mo <;> decide

/-- C7: compiled for a platform without file-creation metadata
(macos = false), the create predicate is statically disabled in both
walkers: the per-file outcome ignores the create flag and the created
timestamp entirely (so a created-side failure cannot surface), and the
annotation never contains the character c. -/
theorem C7_create_statically_disabled (s : Search) (b : Bool) (p n : String)
    (m : FileMeta) (x : Except String Nat) :
    SyncSearch.fileLine false ⟨s.days, s.access, b, s.modify, s.ignore_hidden, s.skip⟩ p m
      = SyncSearch.fileLine false ⟨s.days, s.access, false, s.modify, s.ignore_hidden, s.skip⟩ p
          ⟨m.metadataOk, m.accessed, x, m.modified⟩
    ∧ AsyncSearch.process_entry false ⟨s.days, s.access, b, s.modify, s.ignore_hidden, s.skip⟩ p
        (.file n m)
      = AsyncSearch.process_entry false
          ⟨s.days, s.access, false, s.modify, s.ignore_hidden, s.skip⟩ p
          (.file n ⟨m.metadataOk, m.accessed, x, m.modified⟩)
    ∧ (∀ str, SyncSearch.annotate false ⟨s.days, s.access, b, s.modify, s.ignore_hidden, s.skip⟩ m
        = .ok str → str.data.contains 'c' = false) := by
  obtain ⟨mok, acc, cre, md⟩ := m
  refine ⟨?_, ?_, fun str h => annotate_linux_no_c _ _ str h⟩
  · simp [SyncSearch.fileLine, SyncSearch.annotate, SyncSearch.report_accessed,
      SyncSearch.report_modified]
  · simp [AsyncSearch.process_entry, AsyncSearch.annotate, AsyncSearch.report_accessed,
      AsyncSearch.report_modified]

/-- C7 witness: with the create flag set on a non-mac platform, a fresh
file evaluates identically to one whose created timestamp is an error
under create = false, and the annotation m holds no c. -/
theorem C7_create_statically_disabled_witness :
    SyncSearch.fileLine false ⟨3, false, true, true, false, []⟩ "p" freshMeta
      = SyncSearch.fileLine false ⟨3, false, false, true, false, []⟩ "p"
          ⟨true, .ok 3600, .error "gone", .ok 3600⟩
    ∧ AsyncSearch.process_entry false ⟨3, false, true, true, false, []⟩ "p"
        (.file "f" freshMeta)
      = AsyncSearch.process_entry false ⟨3, false, false, true, false, []⟩ "p"
        (.file "f" ⟨true, .ok 3600, .error "gone", .ok 3600⟩)
    ∧ ("m" : String).data.contains 'c' = false :=
  ⟨(C7_create_statically_disabled ⟨3, false, true, true, false, []⟩ true "p" "f"
      freshMeta (.error "gone")).1,
   (C7_create_statically_disabled ⟨3, false, true, true, false, []⟩ true "p" "f"
      freshMeta (.error "gone")).2.1,
   (C7_create_statically_disabled ⟨3, false, true, true, false, []⟩ true "p" "f"
      freshMeta (.error "gone")).2.2 "m"
     (by simp [SyncSearch.annotate, SyncSearch.report_modified, SyncSearch.report_accessed,
           freshMeta, Except.bind, Except.map, window_three])⟩

/-- C8 counterexample: the claim says a configuration precondition
violation is fatal (a hard failure) and is the sole hard-failure case.
In the code a nonexistent root makes main print a warning and return
Ok (a successful exit, not a hard failure), while in sync mode an
ordinary entry metadata error makes main return Err — a hard failure in
a non-precondition case. -/
theorem C8_counterexample :
    (Amble.main false false ⟨false, true, false, false, 3, [], true⟩ "root" goodTree).outcome
      = .ok
    ∧ (Amble.main false false ⟨false, true, false, false, 3, [], true⟩ "root"
        goodTree).warning.isSome = true
    ∧ (Amble.main false true ⟨true, true, false, false, 1, [], true⟩ "root" errTree).outcome
      = .err "IoError" := by
  have hmin : MIN_DAYS < (1 : ℚ) := by norm_num [MIN_DAYS]
  refine ⟨by simp [Amble.main], by simp [Amble.main], ?_⟩
  rw [Amble.main]
  simp [hmin, Amble.resolveFlags, SyncSearch.find_matching, SyncSearch.walkTree,
    SyncSearch.walkList, SyncSearch.filterEntry, SyncSearch.is_hidden,
    SyncSearch.matches_list, SyncSearch.fileResult, SyncSearch.fileLine,
    SyncSearch.annotate, SyncSearch.report_accessed, SyncSearch.report_modified,
    errTree, brokenMeta, freshMeta, treeName, window_one,
    Except.map, Except.bind, string_isEmpty_eq]

/-- C8 amended: a configuration precondition violation (nonexistent
root, or a days value not exceeding MIN_DAYS) makes main print a
warning and return Ok before any traversal starts: no matches and no
errors are produced, whatever the tree holds, and the exit is
successful rather than a hard failure. -/
theorem C8_precondition_aborts_gracefully (macos dirExists : Bool) (o : Opt)
    (rootPath : String) (t : FsTree)
    (h : dirExists = false ∨ ¬ (MIN_DAYS < o.days)) :
    (Amble.main macos dirExists o rootPath t).warning.isSome = true
    ∧ (Amble.main macos dirExists o rootPath t).matchLines = []
    ∧ (Amble.main macos dirExists o rootPath t).errLines = []
    ∧ (Amble.main macos dirExists o rootPath t).outcome = .ok := by
  rcases h with h | h
  · subst h
    exact ⟨rfl, rfl, rfl, rfl⟩
  · rcases dirExists with _ | _
    · exact ⟨rfl, rfl, rfl, rfl⟩
    · rw [Amble.main]
      simp [h]

/-- C8 amended witness: days = 0 is rejected with a warning, an Ok
exit, and no traversal of the fresh tree. -/
theorem C8_precondition_aborts_gracefully_witness :
    (Amble.main false true ⟨false, true, false, false, 0, [], true⟩ "root" goodTree).warning.isSome
      = true
    ∧ (Amble.main false true ⟨false, true, false, false, 0, [], true⟩ "root" goodTree).matchLines
      = []
    ∧ (Amble.main false true ⟨false, true, false, false, 0, [], true⟩ "root" goodTree).errLines
      = []
    ∧ (Amble.main false true ⟨false, true, false, false, 0, [], true⟩ "root" goodTree).outcome
      = .ok :=
  C8_precondition_aborts_gracefully false true ⟨false, true, false, false, 0, [], true⟩
    "root" goodTree (Or.inr (by norm_num [MIN_DAYS]))

/-- Whether an Except value holds a success. -/
def exceptOk : Except String Nat → Bool
  | .ok _ => true
  | .error _ => false

/-- Every metadata read of this file succeeds. -/
def FileMeta.allOk (m : FileMeta) : Bool :=
  m.metadataOk && exceptOk m.accessed && exceptOk m.created && exceptOk m.modified

mutual
/-- Every file in the subtree has fully readable metadata. -/
def FsTree.metaOk : FsTree → Bool
  | .file _ m => m.allOk
  | .dir _ cs => FsTree.listMetaOk cs
  | .other _ => true
  | .errEntry _ _ => true

/-- Every file below one of the listed subtrees has fully readable
metadata. -/
def FsTree.listMetaOk : List FsTree → Bool
  | [] => true
  | t :: ts => t.metaOk && FsTree.listMetaOk ts
end

mutual
/-- With an empty skip list, hidden handling off and fully readable
metadata, both walkers produce the same match lines on any subtree (and
the parallel one cannot panic). -/
theorem syncAsync_tree (macos : Bool) (s : Search) (hskip : s.skip = [])
    (hh : s.ignore_hidden = false) (isRoot : Bool) (p : String) (t : FsTree)
    (hm : t.metaOk = true) :
    SyncSearch.walkTree macos s p t
      = ((AsyncSearch.walkTree macos s isRoot p t).matchLines, none)
    ∧ (AsyncSearch.walkTree macos s isRoot p t).panicked = false := by
  rcases t with ⟨n, m⟩ | ⟨n, cs⟩ | n | ⟨n, e⟩
  · have hf : SyncSearch.filterEntry s n = true := by
      simp [SyncSearch.filterEntry, SyncSearch.is_hidden, SyncSearch.matches_list, hskip, hh]
    have hhf : AsyncSearch.hiddenFiltered s isRoot n = false := by
      simp [AsyncSearch.hiddenFiltered, hh]
    obtain ⟨mok, acc, cre, md⟩ := m
    simp only [FsTree.metaOk, FileMeta.allOk, Bool.and_eq_true] at hm
    obtain ⟨⟨⟨h1, h2⟩, h3⟩, h4⟩ := hm
    rcases acc with e | ta
    · simp [exceptOk] at h2
    rcases cre with e | tc
    · simp [exceptOk] at h3
    rcases md with e | tm
    · simp [exceptOk] at h4
    have hs := sync_annotate_eq macos s ⟨mok, .ok ta, .ok tc, .ok tm⟩ h1 ta tc tm rfl rfl rfl
    have hA := async_annotate_eq macos s ⟨mok, .ok ta, .ok tc, .ok tm⟩ h1 ta tc tm rfl rfl rfl
    rcases hc : (annotationOf (s.access && decide (ta < window s.days))
        (s.create && macos && decide (tc < window s.days))
        (s.modify && decide (tm < window s.days))).isEmpty with _ | _ <;>
      simp [SyncSearch.walkTree, AsyncSearch.walkTree, SyncSearch.fileResult,
        SyncSearch.fileLine, AsyncSearch.process_entry, hf, hhf, hs, hA, hc, Except.map]
  · have hf : SyncSearch.filterEntry s n = true := by
      simp [SyncSearch.filterEntry, SyncSearch.is_hidden, SyncSearch.matches_list, hskip, hh]
    have hhf : AsyncSearch.hiddenFiltered s isRoot n = false := by
      simp [AsyncSearch.hiddenFiltered, hh]
    have hmcs : FsTree.listMetaOk cs = true := by
      simpa [FsTree.metaOk] using hm
    obtain ⟨ih1, ih2⟩ := syncAsync_list macos s hskip hh p cs hmcs
    simp [SyncSearch.walkTree, AsyncSearch.walkTree, AsyncSearch.process_entry,
      hf, hhf, hskip, ih1, ih2]
  · have hhf : AsyncSearch.hiddenFiltered s isRoot n = false := by
      simp [AsyncSearch.hiddenFiltered, hh]
    simp [SyncSearch.walkTree, AsyncSearch.walkTree, AsyncSearch.process_entry, hhf]
  · simp [SyncSearch.walkTree, AsyncSearch.walkTree, AsyncSearch.process_entry]

/-- List version of the walker agreement. -/
theorem syncAsync_list (macos : Bool) (s : Search) (hskip : s.skip = [])
    (hh : s.ignore_hidden = false) (p : String) (ts : List FsTree)
    (hm : FsTree.listMetaOk ts = true) :
    SyncSearch.walkList macos s p ts
      = ((AsyncSearch.walkChildren macos s p ts).matchLines, none)
    ∧ (AsyncSearch.walkChildren macos s p ts).panicked = false := by
  rcases ts with _ | ⟨t, ts⟩
  · simp [SyncSearch.walkList, AsyncSearch.walkChildren]
  · simp only [FsTree.listMetaOk, Bool.and_eq_true] at hm
    obtain ⟨hmt, hmts⟩ := hm
    obtain ⟨ht1, ht2⟩ := syncAsync_tree macos s hskip hh false (p ++ "/" ++ treeName t) t hmt
    obtain ⟨hl1, hl2⟩ := syncAsync_list macos s hskip hh p ts hmts
    simp [SyncSearch.walkList, AsyncSearch.walkChildren, ht1, ht2, hl1, hl2]
end

/-- C3 counterexample: with skip = ["skip_me"] on an unmodified tree
the sequential walker prunes the skip_me directory and emits nothing,
while the parallel walker (whose matches_list is constantly false)
emits the fresh descendant — the two walkers do not produce the same
set of MatchResults for every configuration. -/
theorem C3_counterexample :
    ¬ ((SyncSearch.find_matching false skipSearch "root" skipTree).1
        = (AsyncSearch.find_matching false skipSearch "root" skipTree).matchLines) := by
  have h1 : (SyncSearch.find_matching false skipSearch "root" skipTree).1 = [] := by
    simp [SyncSearch.find_matching, SyncSearch.walkTree, SyncSearch.walkList,
      SyncSearch.filterEntry, SyncSearch.is_hidden, SyncSearch.matches_list,
      skipSearch, skipTree]
  have h2 : (AsyncSearch.find_matching false skipSearch "root" skipTree).matchLines
      = ["root/skip_me/b.txt (m)"] := by
    simp [AsyncSearch.find_matching, AsyncSearch.walkTree, AsyncSearch.walkChildren,
      AsyncSearch.process_entry, AsyncSearch.annotate, AsyncSearch.report_modified,
      AsyncSearch.report_accessed, AsyncSearch.matches_list, AsyncSearch.hiddenFiltered,
      skipSearch, skipTree, freshMeta, treeName, window_three, Except.map,
      Except.bind, string_isEmpty_eq]
  simp [h1, h2]

/-- C3 amended: when the skip list is empty, hidden handling is off and
every metadata read in the tree succeeds, the sequential and the
parallel walker produce exactly the same match lines (and the
sequential walker returns no error, the parallel one does not
panic). -/
theorem C3_same_matches_without_filters (macos : Bool) (s : Search)
    (hskip : s.skip = []) (hh : s.ignore_hidden = false)
    (rootPath : String) (t : FsTree) (hm : t.metaOk = true) :
    SyncSearch.find_matching macos s rootPath t
      = ((AsyncSearch.find_matching macos s rootPath t).matchLines, none)
    ∧ (AsyncSearch.find_matching macos s rootPath t).panicked = false := by
  unfold SyncSearch.find_matching AsyncSearch.find_matching
  rcases hcrit : !(s.access || s.create || s.modify) with _ | _
  · simp only [hcrit, Bool.false_eq_true, if_false]
    exact syncAsync_tree macos s hskip hh true rootPath t hm
  · simp [hcrit]

/-- C3 amended witness: on a directory holding one fresh file, an
access+modify day-long search yields the same single line from both
walkers. -/
theorem C3_same_matches_without_filters_witness :
    SyncSearch.find_matching false amSearch "root" goodTree
      = ((AsyncSearch.find_matching false amSearch "root" goodTree).matchLines, none)
    ∧ (AsyncSearch.find_matching false amSearch "root" goodTree).panicked = false :=
  C3_same_matches_without_filters false amSearch rfl rfl "root" goodTree
    (by simp [FsTree.metaOk, FsTree.listMetaOk, FileMeta.allOk, exceptOk,
      goodTree, freshMeta])
